import Mathlib

/-!
Verification development for the `memory_scanner` repository: a shallow
embedding, in Lean, of the pointer classifier, the region-membership binary
search, the command packing of the monitor control channel, the error
injection strategy with its per-class quotas, and the checkpoint/restore
logic, together with theorems settling the specification claims.

Machine integers (`uint64_t`) are modelled as `Nat` with explicit bounds or
`% 2^64` where overflow matters.  C++ `std::string` is modelled as `String`,
with substring search (`std::string::find != npos`) spelled out on the
character list.  Syscall outcomes (ptrace, process_vm_readv/writev) and the
strategy random draws are modelled as explicit oracle inputs: every theorem
quantifies over all of their values.
-/

namespace MemoryScanner

/-- Embedding of `struct MemoryRegion` (include/memory_tools/memory_region.hh
and process_base.hh): a half-open address range with permission bits and a
mapping label. -/
structure MemoryRegion where
  start_addr : Nat
  end_addr : Nat
  is_readable : Bool
  is_writable : Bool
  is_executable : Bool
  is_private : Bool
  mapping_name : String
deriving Repr, DecidableEq

instance : Inhabited MemoryRegion :=
  ⟨⟨0, 0, false, false, false, false, ""⟩⟩

/-- `MemoryRegion::contains` (memory_region.hh): `addr >= start_addr && addr < end_addr`. -/
def MemoryRegion.contains (r : MemoryRegion) (addr : Nat) : Bool :=
  decide (addr ≥ r.start_addr) && decide (addr < r.end_addr)

/-- Embedding of `enum class PointerType` (memory_region.hh). -/
inductive PointerType where
  | Heap
  | Stack
  | Static
  | Unknown
deriving Repr, DecidableEq

/-- `pat.isPrefixOf s`-style matching used to spell out
`std::string::find(pat) != npos`: true iff `pat` occurs as a contiguous
substring of `s` (the empty pattern occurs at position 0). -/
def listContainsSubstr (s pat : List Char) : Bool :=
  pat.isPrefixOf s ||
    match s with
    | [] => false
    | _ :: t => listContainsSubstr t pat

/-- `s.find(pat) != std::string::npos` on the embedded strings. -/
def strContainsSubstr (s pat : String) : Bool :=
  listContainsSubstr s.toList pat.toList

/-- `MemoryRegion::DeterminePointerType` (memory_region.hh): empty label →
Unknown; label containing `"[heap]"` → Heap; else containing `"[stack]"` →
Stack; any other → Static. -/
def MemoryRegion.DeterminePointerType (r : MemoryRegion) : PointerType :=
  if r.mapping_name.toList = [] then PointerType.Unknown
  else if strContainsSubstr r.mapping_name "[heap]" then PointerType.Heap
  else if strContainsSubstr r.mapping_name "[stack]" then PointerType.Stack
  else PointerType.Static

/-- `ErrorInjectionStrategy::determine_pointer_type`
(process_base.hh, lines 201-214): `Unknown` when there is no current region
or its label is empty, otherwise the same label classification. -/
def determine_pointer_type (current_region : Option MemoryRegion) : PointerType :=
  match current_region with
  | none => PointerType.Unknown
  | some r =>
    if r.mapping_name.toList = [] then PointerType.Unknown
    else if strContainsSubstr r.mapping_name "[heap]" then PointerType.Heap
    else if strContainsSubstr r.mapping_name "[stack]" then PointerType.Stack
    else PointerType.Static

/-! ### The region-membership binary search (`ProcessBase::IsValidPointerTarget`)

`std::upper_bound(all_regions_.begin(), all_regions_.end(), addr, comp)` with
`comp(addr, region) = addr < region.start_addr` performs the classic halving
loop: while `len > 0`, let `half = len / 2`, `middle = first + half`; if
`comp(addr, a[middle])` then `len = half` else `first = middle + 1`,
`len = len - half - 1`.  We embed that loop directly; the extra `fuel`
argument (initialised to `len`, which only ever shrinks) makes the recursion
structural so that the function evaluates by kernel reduction. -/

/-- The `std::upper_bound` halving loop over the region vector, recursing on
`fuel ≥ len`. -/
def upperBoundLoop (rs : List MemoryRegion) (addr : Nat) :
    Nat → Nat → Nat → Nat
  | 0, first, _ => first
  | fuel + 1, first, len =>
    if len = 0 then first
    else
      let half := len / 2
      let middle := first + half
      if addr < (rs.getD middle default).start_addr then
        upperBoundLoop rs addr fuel first half
      else
        upperBoundLoop rs addr fuel (middle + 1) (len - half - 1)

/-- `std::upper_bound` over the whole sorted region vector, returning an index
into `rs` (`rs.length` plays the role of the `end()` iterator). -/
def upperBound (rs : List MemoryRegion) (addr : Nat) : Nat :=
  upperBoundLoop rs addr rs.length 0 rs.length

/-- `ProcessBase::IsValidPointerTarget` (process_base.cc, lines 293-303):
upper-bound on `start_addr`, step back one region, check containment. -/
def IsValidPointerTarget (all_regions : List MemoryRegion) (addr : Nat) : Bool :=
  let i := upperBound all_regions addr
  if i = 0 then false
  else
    let r := all_regions.getD (i - 1) default
    decide (addr ≥ r.start_addr) && decide (addr < r.end_addr)

/-- The high-16-bit mask `0xffff000000000000` from
`ProcessBase::IsLikelyPointer`. -/
def highMask : Nat := 0xffff000000000000

/-- `ProcessBase::IsLikelyPointer` (process_base.cc, lines 305-323): reject
zero, odd values, and non-canonical high bits, then fall through to the
region-membership check. -/
def IsLikelyPointer (all_regions : List MemoryRegion) (value : Nat) : Bool :=
  if value = 0 then false
  else if value &&& 0x1 ≠ 0 then false
  else if value &&& highMask ≠ 0 ∧ value &&& highMask ≠ highMask then false
  else IsValidPointerTarget all_regions value

/-! ### Command packing (`CommandInfo`, monitor_interface.hh) -/

/-- Embedding of `enum class MonitorCommand : uint8_t`. -/
inductive MonitorCommand where
  | NoOp
  | Checkpoint
  | Restore
  | InjectErrors
  | Scan
deriving Repr, DecidableEq

/-- The numeric value of each `MonitorCommand` enumerator. -/
def MonitorCommand.toNat : MonitorCommand → Nat
  | .NoOp => 0
  | .Checkpoint => 1
  | .Restore => 2
  | .InjectErrors => 3
  | .Scan => 4

/-- `CommandInfo::PARAM_MASK = (1ULL << 28) - 1`. -/
def PARAM_MASK : Nat := (1 <<< 28) - 1

/-- `CommandInfo::CMD_SHIFT`. -/
def CMD_SHIFT : Nat := 56

/-- `CommandInfo::PARAM1_SHIFT`. -/
def PARAM1_SHIFT : Nat := 28

/-- `CommandInfo::Pack` (monitor_interface.hh, lines 37-44): the packed
pointer-width value `(cmd << 56) | ((param1 & MASK) << 28) | (param2 & MASK)`.
`cmd` is the `uint8_t` enumerator value, hence the `% 256`. -/
def Pack (cmd param1 param2 : Nat) : Nat :=
  ((cmd % 256) <<< CMD_SHIFT) |||
    ((param1 &&& PARAM_MASK) <<< PARAM1_SHIFT) ||| (param2 &&& PARAM_MASK)

/-- `CommandInfo::Unpack` (monitor_interface.hh, lines 47-54): recover
`(cmd, param1, param2)` from the packed value. -/
def Unpack (packed : Nat) : Nat × Nat × Nat :=
  (packed >>> CMD_SHIFT, (packed >>> PARAM1_SHIFT) &&& PARAM_MASK,
    packed &&& PARAM_MASK)

/-! ### Error injection strategy (include/memory_tools/process_base.hh)

The strategy owns a Mersenne-twister RNG, a uniform real distribution for
gating and a bounded integer distribution for bit indices.  The embedding
abstracts each random draw (and the wall-clock timestamp) as an explicit
oracle input carried by `InjectDraws`; every theorem below quantifies over
all oracle values, so it holds for every RNG stream. -/

/-- `enum class ErrorType` (process_base.hh). -/
inductive ErrorType where
  | BitFlip
  | StuckAtZero
  | StuckAtOne
deriving Repr, DecidableEq

/-- `ErrorInjectionStrategy::RegionQuota` (process_base.hh, lines 109-162):
four class counters/quotas plus the wildcard counter/quota. -/
structure RegionQuota where
  heap_errors : Nat := 0
  stack_errors : Nat := 0
  static_errors : Nat := 0
  wildcard_errors : Nat := 0
  heap_quota : Nat := 0
  stack_quota : Nat := 0
  static_quota : Nat := 0
  wildcard_quota : Nat := 0
deriving Repr, DecidableEq

/-- `RegionQuota::Available` (process_base.hh, lines 121-133): class budget
remaining, or wildcard budget remaining; the `default:` branch (reached for
`PointerType::Unknown`) returns `false` unconditionally. -/
def RegionQuota.Available (q : RegionQuota) (t : PointerType) : Bool :=
  let wildcard_avail := decide (q.wildcard_errors < q.wildcard_quota)
  match t with
  | PointerType.Heap => decide (q.heap_errors < q.heap_quota) || wildcard_avail
  | PointerType.Stack => decide (q.stack_errors < q.stack_quota) || wildcard_avail
  | PointerType.Static => decide (q.static_errors < q.static_quota) || wildcard_avail
  | PointerType.Unknown => false

/-- `RegionQuota::Increment` (process_base.hh, lines 135-161): bump the class
counter when it is below its quota, otherwise the wildcard counter; the
`default:` branch (for `Unknown`) does nothing. -/
def RegionQuota.Increment (q : RegionQuota) (t : PointerType) : RegionQuota :=
  match t with
  | PointerType.Heap =>
    if q.heap_quota = q.heap_errors then
      { q with wildcard_errors := q.wildcard_errors + 1 }
    else { q with heap_errors := q.heap_errors + 1 }
  | PointerType.Stack =>
    if q.stack_quota = q.stack_errors then
      { q with wildcard_errors := q.wildcard_errors + 1 }
    else { q with stack_errors := q.stack_errors + 1 }
  | PointerType.Static =>
    if q.static_quota = q.static_errors then
      { q with wildcard_errors := q.wildcard_errors + 1 }
    else { q with static_errors := q.static_errors + 1 }
  | PointerType.Unknown => q

/-- `struct ValueChange` (process_base.hh): one injected-fault record.  The
`steady_clock` timestamp is a `Nat`. -/
structure ValueChange where
  original : Nat
  modified : Nat
  type : PointerType
  region_name : String
  injection_time : Nat
deriving Repr, DecidableEq

/-- Mutable state of `ErrorInjectionStrategy`: error mode, quota, the change
map (`std::unordered_map<uint64_t, ValueChange>` as an association list with
distinct keys; `operator[]` assignment overwrites in place) and the current
region pointer. -/
structure ErrorInjectionStrategy where
  err_type : ErrorType
  quota : RegionQuota
  changes : List (Nat × ValueChange)
  current_region : Option MemoryRegion
deriving Repr, DecidableEq

/-- The constructor (process_base.hh, lines 165-176): all class quotas stay
zero and `quota_.wildcard_quota = error_limit`. -/
def mkErrorInjectionStrategy (t : ErrorType) (error_limit : Nat) :
    ErrorInjectionStrategy :=
  { err_type := t
    quota := { wildcard_quota := error_limit }
    changes := []
    current_region := none }

/-- `changes_[addr] = v`: `std::unordered_map::operator[]` inserts the key if
absent, then the assignment overwrites the mapped value. -/
def insertChange (m : List (Nat × ValueChange)) (addr : Nat) (v : ValueChange) :
    List (Nat × ValueChange) :=
  match m with
  | [] => [(addr, v)]
  | (k, w) :: t =>
    if k = addr then (k, v) :: t else (k, w) :: insertChange t addr v

/-- One invocation's random draws and timestamp, abstracted as oracle inputs:
`draw_gt_rate` is the value of the comparison `dist_(rng_) > rate`, `bit` the
first `bit_dist_` draw, `bit2` the fresh draw used by the stuck-at modes, and
`time` the `steady_clock::now()` reading. -/
structure InjectDraws where
  draw_gt_rate : Bool
  bit : Nat
  bit2 : Nat
  time : Nat
deriving Repr, DecidableEq

/-- `ErrorInjectionStrategy::SetCurrentRegion`. -/
def SetCurrentRegion (s : ErrorInjectionStrategy) (r : MemoryRegion) :
    ErrorInjectionStrategy :=
  { s with current_region := some r }

/-- `ErrorInjectionStrategy::inject_error` (process_base.hh, lines 216-253):
returns the updated strategy state, whether a mutation was signalled, and the
(possibly mutated) word.  `~(1ULL << b)` is the 64-bit complement
`(2^64 - 1) ^^^ (1 <<< b)`. -/
def inject_error (s : ErrorInjectionStrategy) (d : InjectDraws)
    (addr value : Nat) (writable : Bool) :
    ErrorInjectionStrategy × Bool × Nat :=
  let t := determine_pointer_type s.current_region
  if !writable || d.draw_gt_rate || !(s.quota.Available t) then (s, false, value)
  else
    let old_value := value
    let new_value :=
      match s.err_type with
      | ErrorType.BitFlip => value ^^^ (1 <<< d.bit)
      | ErrorType.StuckAtZero => value &&& ((2 ^ 64 - 1) ^^^ (1 <<< d.bit2))
      | ErrorType.StuckAtOne => value ||| (1 <<< d.bit2)
    let name :=
      match s.current_region with
      | some r => r.mapping_name
      | none => "unknown"
    let ch : ValueChange := ⟨old_value, new_value, t, name, d.time⟩
    ({ s with
        changes := insertChange s.changes addr ch
        quota := s.quota.Increment t },
      true, new_value)

/-- `ErrorInjectionStrategy::HandlePointer`: `inject_error` with the pointer
error rate (the rate only feeds the abstracted comparison `draw_gt_rate`). -/
def HandlePointer (s : ErrorInjectionStrategy) (d : InjectDraws)
    (addr value : Nat) (writable : Bool) :
    ErrorInjectionStrategy × Bool × Nat :=
  inject_error s d addr value writable

/-- `ErrorInjectionStrategy::HandleNonPointer`: `inject_error` with the
non-pointer error rate. -/
def HandleNonPointer (s : ErrorInjectionStrategy) (d : InjectDraws)
    (addr value : Nat) (writable : Bool) :
    ErrorInjectionStrategy × Bool × Nat :=
  inject_error s d addr value writable

/-- One scanner-visible action on the strategy during any number of scans:
a region-context switch or a handler invocation. -/
inductive StrategyEvent where
  | setRegion (r : MemoryRegion)
  | handlePointer (d : InjectDraws) (addr value : Nat) (writable : Bool)
  | handleNonPointer (d : InjectDraws) (addr value : Nat) (writable : Bool)

/-- Apply one event to the strategy state. -/
def stepStrategy (s : ErrorInjectionStrategy) : StrategyEvent → ErrorInjectionStrategy
  | StrategyEvent.setRegion r => SetCurrentRegion s r
  | StrategyEvent.handlePointer d a v w => (HandlePointer s d a v w).1
  | StrategyEvent.handleNonPointer d a v w => (HandleNonPointer s d a v w).1

/-- Run the strategy over an arbitrary sequence of scan events (no reset). -/
def runStrategy (s : ErrorInjectionStrategy) (es : List StrategyEvent) :
    ErrorInjectionStrategy :=
  es.foldl stepStrategy s

/-! ### Checkpoint / restore (src/unnamed/part_009, `ProcessCheckpoint`) -/

/-- `ProcessCheckpoint::MemoryChunk`: start address plus the saved bytes. -/
structure MemoryChunk where
  addr : Nat
  data : List Nat
deriving Repr, DecidableEq

/-- The checkpoint state: saved chunks and the recorded region list. -/
structure ProcessCheckpoint where
  checkpoint_data : List MemoryChunk
  checkpoint_regions : List MemoryRegion
deriving Repr, DecidableEq

/-- `ProcessCheckpoint::Clear` (part_009, lines 79-82). -/
def ProcessCheckpoint.Clear (_st : ProcessCheckpoint) : ProcessCheckpoint :=
  { checkpoint_data := [], checkpoint_regions := [] }

/-- The snapshot loop of `CreateCheckpoint` (part_009, lines 22-40): walk the
recorded regions, skip non-writable ones, read each writable region through
the oracle `readMem addr size`; `none` (a failed `ReadMemory`) aborts the
whole loop. -/
def createChunks (readMem : Nat → Nat → Option (List Nat)) :
    List MemoryRegion → Option (List MemoryChunk)
  | [] => some []
  | r :: rest =>
    if !r.is_writable then createChunks readMem rest
    else
      match readMem r.start_addr (r.end_addr - r.start_addr) with
      | none => none
      | some d =>
        match createChunks readMem rest with
        | none => none
        | some cs => some (⟨r.start_addr, d⟩ :: cs)

/-- `ProcessCheckpoint::CreateCheckpoint` (part_009, lines 8-43).  `attached`
is `IsAttached()`, `refreshOk` the result of `RefreshMemoryMap()`, and
`readable_regions` the refreshed `GetReadableRegions()`.  On a read failure
the stored data and recorded regions are cleared (`Clear()`) before failure
is returned. -/
def CreateCheckpoint (attached refreshOk : Bool)
    (readable_regions : List MemoryRegion)
    (readMem : Nat → Nat → Option (List Nat)) (st : ProcessCheckpoint) :
    Bool × ProcessCheckpoint :=
  if !attached then (false, st)
  else if !refreshOk then (false, st)
  else
    match createChunks readMem readable_regions with
    | none => (false, st.Clear)
    | some cs => (true, ⟨cs, readable_regions⟩)

/-- The `std::equal` call of `RestoreCheckpoint` (part_009, lines 56-65):
both sequences must have the same length and agree elementwise on
`start_addr`, `end_addr` and `is_writable`. -/
def regionsEqual : List MemoryRegion → List MemoryRegion → Bool
  | [], [] => true
  | a :: as_, b :: bs =>
    (decide (a.start_addr = b.start_addr) && decide (a.end_addr = b.end_addr)
        && (a.is_writable == b.is_writable))
      && regionsEqual as_ bs
  | _, _ => false

/-- The write-back loop of `RestoreCheckpoint` (part_009, lines 68-74):
attempt each chunk in order through the oracle `writeMem`; a failed
`WriteMemory` aborts.  Returns the overall result together with the list of
chunks for which a write was attempted. -/
def writeChunks (writeMem : Nat → List Nat → Bool) :
    List MemoryChunk → Bool × List MemoryChunk
  | [] => (true, [])
  | c :: cs =>
    if writeMem c.addr c.data then
      let r := writeChunks writeMem cs
      (r.1, c :: r.2)
    else (false, [c])

/-- `ProcessCheckpoint::RestoreCheckpoint` (part_009, lines 45-77):
`current_regions` is the refreshed `GetReadableRegions()` view.  Returns the
result together with the chunks whose write-back was attempted (empty list =
no byte of the traced process touched). -/
def RestoreCheckpoint (attached : Bool) (current_regions : List MemoryRegion)
    (writeMem : Nat → List Nat → Bool) (st : ProcessCheckpoint) :
    Bool × List MemoryChunk :=
  if !attached then (false, [])
  else if st.checkpoint_data.isEmpty then (false, [])
  else if !(regionsEqual st.checkpoint_regions current_regions) then (false, [])
  else writeChunks writeMem st.checkpoint_data

/-! ### Monitor command channel (src/unnamed/part_017) -/

/-- The handler-visible globals: `g_last_cmd_data` (a pointer-width value,
`0` = null) and `g_command_pending`. -/
structure MonitorChannelState where
  last_cmd_data : Nat
  command_pending : Bool
deriving Repr, DecidableEq

/-- `HandleCommandSignal` (part_017, lines 13-27): a signal whose payload
pointer (`info->si_ptr`) is null is discarded without storing the command or
setting the pending flag; otherwise the payload is stored and the flag set. -/
def HandleCommandSignal (st : MonitorChannelState) (si_ptr : Nat) :
    MonitorChannelState :=
  if si_ptr = 0 then st
  else { last_cmd_data := si_ptr, command_pending := true }

/-! ### Process controller preconditions (src/src/process_base.cc,
src/src/process_scanner.cc)

The ptrace/waitpid syscall outcomes are abstracted as the oracle record
`PtraceWorld`; the state of a controller is its `is_attached_` flag. -/

/-- Outcomes of the syscalls performed by `ProcessBase::Attach`. -/
structure PtraceWorld where
  attach_ok : Bool
  wait1_ok : Bool
  stopped1 : Bool
  stopsig1_trap : Bool
  wait2_ok : Bool
  stopped2 : Bool
  stopsig2_stop : Bool
  refresh_ok : Bool
deriving Repr, DecidableEq

/-- `ProcessBase::Attach` (process_base.cc, lines 38-86): returns
`(result, is_attached_ afterwards)`.  When already attached it returns `true`
immediately; otherwise it follows the attach/wait/trap-consumption control
flow, setting `is_attached_ = true` and returning `RefreshMemoryMap()` on the
successful paths. -/
def Attach (is_attached : Bool) (w : PtraceWorld) : Bool × Bool :=
  if is_attached then (true, true)
  else if !w.attach_ok then (false, false)
  else if !w.wait1_ok then (false, false)
  else if !w.stopped1 then (false, false)
  else if w.stopsig1_trap then
    if !w.wait2_ok then (false, false)
    else if w.stopped2 then
      if !w.stopsig2_stop then (false, false)
      else (w.refresh_ok, true)
    else (false, false)
  else (w.refresh_ok, true)

/-- `ProcessBase::ProcessBase` (process_base.cc, lines 24-30): throws
`std::invalid_argument` for `target_pid <= 0`, otherwise constructs with
`is_attached_ = false`.  `pid_t` is a signed integer. -/
def ProcessBaseNew (target_pid : Int) : Except String (Int × Bool) :=
  if target_pid ≤ 0 then Except.error "Invalid process ID"
  else Except.ok (target_pid, false)

/-- `ProcessScanner::ProcessScanner` (process_scanner.cc, lines 17-22): the
base-class constructor runs first (throwing on `pid <= 0`), then a zero
thread count throws `std::invalid_argument`. -/
def ProcessScannerNew (target_pid : Int) (num_threads : Nat) :
    Except String (Int × Bool × Nat) :=
  match ProcessBaseNew target_pid with
  | Except.error e => Except.error e
  | Except.ok (pid, att) =>
    if num_threads = 0 then Except.error "Invalid number of threads (0)"
    else Except.ok (pid, att, num_threads)

/-- The inductive invariant of the quota bookkeeping: every error counter is
within its quota and the change map holds at most as many entries as errors
were counted.  This is a verification artifact (not a source function) used
to establish the global change-map bound. -/
def QuotaInvariant (s : ErrorInjectionStrategy) : Prop :=
  s.quota.heap_errors ≤ s.quota.heap_quota ∧
  s.quota.stack_errors ≤ s.quota.stack_quota ∧
  s.quota.static_errors ≤ s.quota.static_quota ∧
  s.quota.wildcard_errors ≤ s.quota.wildcard_quota ∧
  s.changes.length ≤ s.quota.heap_errors + s.quota.stack_errors +
    s.quota.static_errors + s.quota.wildcard_errors

/-! ### Arithmetic facts about the command packing -/

lemma param_mask_eq : PARAM_MASK = 2 ^ 28 - 1 := by
  simp [PARAM_MASK, Nat.shiftLeft_eq]

lemma and_param_mask (x : Nat) : x &&& PARAM_MASK = x % 2 ^ 28 := by
  rw [param_mask_eq, Nat.and_pow_two_sub_one_eq_mod]

lemma pack_and_mask (c p1 p2 : Nat) (h2 : p2 < 2 ^ 28) :
    Pack c p1 p2 &&& PARAM_MASK = p2 := by
  rw [and_param_mask]
  apply Nat.eq_of_testBit_eq
  intro i
  rw [Nat.testBit_mod_two_pow]
  rcases Nat.lt_or_ge i 28 with hi | hi
  · have h56 : ¬ (i ≥ 56) := by omega
    have h28 : ¬ (i ≥ 28) := by omega
    simp only [Pack, CMD_SHIFT, PARAM1_SHIFT, Nat.testBit_or, Nat.testBit_shiftLeft,
      and_param_mask, Nat.testBit_mod_two_pow]
    simp [h56, h28, hi]
  · have hbit : Nat.testBit p2 i = false :=
      Nat.testBit_lt_two_pow
        (Nat.lt_of_lt_of_le h2 (Nat.pow_le_pow_right (by norm_num) hi))
    have hni : ¬ (i < 28) := by omega
    simp [hni, hbit]

lemma pack_shiftRight_param1 (c p1 p2 : Nat) (h1 : p1 < 2 ^ 28) (h2 : p2 < 2 ^ 28) :
    (Pack c p1 p2 >>> PARAM1_SHIFT) &&& PARAM_MASK = p1 := by
  rw [and_param_mask]
  apply Nat.eq_of_testBit_eq
  intro i
  rw [Nat.testBit_mod_two_pow]
  rcases Nat.lt_or_ge i 28 with hi | hi
  · have h56 : ¬ (28 + i ≥ 56) := by omega
    have h28 : (28 + i ≥ 28) := by omega
    have hsub : 28 + i - 28 = i := by omega
    have hp2 : Nat.testBit p2 (28 + i) = false :=
      Nat.testBit_lt_two_pow
        (Nat.lt_of_lt_of_le h2 (Nat.pow_le_pow_right (by norm_num) (by omega)))
    simp only [Pack, CMD_SHIFT, PARAM1_SHIFT, Nat.testBit_shiftRight, Nat.testBit_or,
      Nat.testBit_shiftLeft, and_param_mask, Nat.testBit_mod_two_pow]
    simp [h56, h28, hsub, hi, hp2]
  · have hbit : Nat.testBit p1 i = false :=
      Nat.testBit_lt_two_pow
        (Nat.lt_of_lt_of_le h1 (Nat.pow_le_pow_right (by norm_num) hi))
    have hni : ¬ (i < 28) := by omega
    simp [hni, hbit]

lemma pack_shiftRight_cmd (c p1 p2 : Nat) :
    Pack c p1 p2 >>> CMD_SHIFT = c % 256 := by
  apply Nat.eq_of_testBit_eq
  intro i
  have h56 : 56 + i ≥ 56 := by omega
  have hsub : 56 + i - 56 = i := by omega
  have hn28 : ¬ (56 + i < 28) := by omega
  have h28 : 56 + i ≥ 28 := by omega
  have hnsub2 : ¬ (56 + i - 28 < 28) := by omega
  simp only [Pack, CMD_SHIFT, PARAM1_SHIFT, Nat.testBit_shiftRight, Nat.testBit_or,
    Nat.testBit_shiftLeft, and_param_mask, Nat.testBit_mod_two_pow]
  simp [h56, hsub, hn28, h28, hnsub2]

/-! ### The `std::upper_bound` loop: invariant and correctness -/

lemma getD_eq_getElem_of_lt (l : List MemoryRegion) (i : Nat) (h : i < l.length) :
    l.getD i default = l[i] := by
  simp [List.getD_eq_getElem?_getD, List.getElem?_eq_getElem h]

lemma upperBoundLoop_unfold (rs : List MemoryRegion) (addr fuel first len : Nat) :
    upperBoundLoop rs addr (fuel + 1) first len =
      if len = 0 then first
      else if addr < (rs.getD (first + len / 2) default).start_addr then
        upperBoundLoop rs addr fuel first (len / 2)
      else upperBoundLoop rs addr fuel (first + len / 2 + 1) (len - len / 2 - 1) := rfl

/-- Correctness of the halving loop on a range partitioned by the predicate
`addr < start_addr`: the result separates the indices failing the predicate
from those satisfying it. -/
lemma upperBoundLoop_spec (rs : List MemoryRegion) (addr : Nat)
    (hmono : ∀ j k, j ≤ k → k < rs.length →
      addr < (rs.getD j default).start_addr → addr < (rs.getD k default).start_addr) :
    ∀ fuel len first, len ≤ fuel → first + len ≤ rs.length →
    (∀ j, j < first → ¬ addr < (rs.getD j default).start_addr) →
    (∀ j, first + len ≤ j → j < rs.length → addr < (rs.getD j default).start_addr) →
    first ≤ upperBoundLoop rs addr fuel first len ∧
    upperBoundLoop rs addr fuel first len ≤ first + len ∧
    (∀ j, j < upperBoundLoop rs addr fuel first len →
      ¬ addr < (rs.getD j default).start_addr) ∧
    (∀ j, upperBoundLoop rs addr fuel first len ≤ j → j < rs.length →
      addr < (rs.getD j default).start_addr) := by
  intro fuel
  induction fuel with
  | zero =>
    intro len first hlen hle hlo hhi
    have hl0 : len = 0 := by omega
    subst hl0
    simp only [upperBoundLoop]
    exact ⟨Nat.le_refl _, by omega, hlo, fun j hj hjn => hhi j (by omega) hjn⟩
  | succ fuel ih =>
    intro len first hlen hle hlo hhi
    rw [upperBoundLoop_unfold]
    by_cases h0 : len = 0
    · rw [if_pos h0]
      subst h0
      exact ⟨Nat.le_refl _, by omega, hlo, fun j hj hjn => hhi j (by omega) hjn⟩
    · rw [if_neg h0]
      by_cases hc : addr < (rs.getD (first + len / 2) default).start_addr
      · rw [if_pos hc]
        have hrec := ih (len / 2) first (by omega) (by omega) hlo ?_
        · exact ⟨hrec.1, by omega, hrec.2.2.1, hrec.2.2.2⟩
        · intro j hj hjn
          rcases Nat.lt_or_ge j (first + len) with hlt | hge
          · exact hmono (first + len / 2) j (by omega) hjn hc
          · exact hhi j hge hjn
      · rw [if_neg hc]
        have hmid : first + len / 2 < rs.length := by omega
        have hrec := ih (len - len / 2 - 1) (first + len / 2 + 1) (by omega) (by omega) ?_ ?_
        · exact ⟨by omega, by omega, hrec.2.2.1, hrec.2.2.2⟩
        · intro j hj
          rcases Nat.lt_or_ge j first with hjf | hjf
          · exact hlo j hjf
          · intro hP
            exact hc (hmono j (first + len / 2) (by omega) hmid hP)
        · intro j hj hjn
          exact hhi j (by omega) hjn

/-! ### Substring search, mathematically characterised -/

lemma isPrefixOf_iff_take (pat s : List Char) :
    pat.isPrefixOf s = true ↔ s.take pat.length = pat := by
  rw [List.isPrefixOf_iff_prefix, List.prefix_iff_eq_take]
  exact ⟨fun h => h.symm, fun h => h.symm⟩

/-- `find(pat) != npos` holds exactly when `pat` occurs contiguously in `s`
at some offset `i`. -/
lemma listContainsSubstr_iff (s pat : List Char) :
    listContainsSubstr s pat = true ↔ ∃ i, (s.drop i).take pat.length = pat := by
  induction s with
  | nil =>
    rw [listContainsSubstr]
    simp [isPrefixOf_iff_take]
  | cons c t ih =>
    rw [listContainsSubstr]
    simp only [Bool.or_eq_true, isPrefixOf_iff_take, ih]
    constructor
    · rintro (h | ⟨i, hi⟩)
      · exact ⟨0, by simpa using h⟩
      · exact ⟨i + 1, by simpa using hi⟩
    · rintro ⟨i, hi⟩
      cases i with
      | zero => exact Or.inl (by simpa using hi)
      | succ j => exact Or.inr ⟨j, by simpa using hi⟩

/-! ### Quota bookkeeping: preservation lemmas -/

lemma insertChange_length (m : List (Nat × ValueChange)) (a : Nat) (v : ValueChange) :
    (insertChange m a v).length ≤ m.length + 1 := by
  induction m with
  | nil => simp [insertChange]
  | cons p t ih =>
    obtain ⟨k, w⟩ := p
    by_cases hk : k = a
    · simp [insertChange, hk]
    · simp only [insertChange, if_neg hk, List.length_cons]
      omega

lemma quotaInvariant_inject (s : ErrorInjectionStrategy) (d : InjectDraws)
    (addr value : Nat) (writable : Bool) (h : QuotaInvariant s) :
    QuotaInvariant (inject_error s d addr value writable).1 := by
  unfold inject_error
  by_cases hguard : (!writable || d.draw_gt_rate
      || !(s.quota.Available (determine_pointer_type s.current_region))) = true
  · rw [if_pos hguard]
    exact h
  · rw [if_neg hguard]
    have hav : s.quota.Available (determine_pointer_type s.current_region) = true := by
      by_contra hfalse
      apply hguard
      rw [Bool.not_eq_true] at hfalse
      simp [hfalse]
    obtain ⟨h1, h2, h3, h4, h5⟩ := h
    have hlen := insertChange_length s.changes addr
      ⟨value, (match s.err_type with
        | ErrorType.BitFlip => value ^^^ (1 <<< d.bit)
        | ErrorType.StuckAtZero => value &&& ((2 ^ 64 - 1) ^^^ (1 <<< d.bit2))
        | ErrorType.StuckAtOne => value ||| (1 <<< d.bit2)),
        determine_pointer_type s.current_region,
        (match s.current_region with
          | some r => r.mapping_name
          | none => "unknown"), d.time⟩
    unfold QuotaInvariant
    dsimp only
    cases ht : determine_pointer_type s.current_region with
    | Heap =>
      rw [ht] at hav hlen
      have hav2 : s.quota.heap_errors < s.quota.heap_quota ∨
          s.quota.wildcard_errors < s.quota.wildcard_quota := by
        simpa [RegionQuota.Available] using hav
      unfold RegionQuota.Increment
      by_cases he : s.quota.heap_quota = s.quota.heap_errors
      · rw [if_pos he]
        dsimp only
        rcases hav2 with hcase | hcase <;> omega
      · rw [if_neg he]
        dsimp only
        rcases hav2 with hcase | hcase <;> omega
    | Stack =>
      rw [ht] at hav hlen
      have hav2 : s.quota.stack_errors < s.quota.stack_quota ∨
          s.quota.wildcard_errors < s.quota.wildcard_quota := by
        simpa [RegionQuota.Available] using hav
      unfold RegionQuota.Increment
      by_cases he : s.quota.stack_quota = s.quota.stack_errors
      · rw [if_pos he]
        dsimp only
        rcases hav2 with hcase | hcase <;> omega
      · rw [if_neg he]
        dsimp only
        rcases hav2 with hcase | hcase <;> omega
    | Static =>
      rw [ht] at hav hlen
      have hav2 : s.quota.static_errors < s.quota.static_quota ∨
          s.quota.wildcard_errors < s.quota.wildcard_quota := by
        simpa [RegionQuota.Available] using hav
      unfold RegionQuota.Increment
      by_cases he : s.quota.static_quota = s.quota.static_errors
      · rw [if_pos he]
        dsimp only
        rcases hav2 with hcase | hcase <;> omega
      · rw [if_neg he]
        dsimp only
        rcases hav2 with hcase | hcase <;> omega
    | Unknown =>
      rw [ht] at hav
      simp [RegionQuota.Available] at hav

lemma increment_quota_const (q : RegionQuota) (t : PointerType) :
    (q.Increment t).heap_quota = q.heap_quota ∧
    (q.Increment t).stack_quota = q.stack_quota ∧
    (q.Increment t).static_quota = q.static_quota ∧
    (q.Increment t).wildcard_quota = q.wildcard_quota := by
  cases t <;> dsimp only [RegionQuota.Increment] <;>
    first
    | (split <;> exact ⟨rfl, rfl, rfl, rfl⟩)
    | exact ⟨rfl, rfl, rfl, rfl⟩

lemma inject_error_quota (s : ErrorInjectionStrategy) (d : InjectDraws)
    (addr value : Nat) (writable : Bool) :
    (inject_error s d addr value writable).1.quota = s.quota ∨
    (inject_error s d addr value writable).1.quota =
      s.quota.Increment (determine_pointer_type s.current_region) := by
  unfold inject_error
  by_cases hguard : (!writable || d.draw_gt_rate
      || !(s.quota.Available (determine_pointer_type s.current_region))) = true
  · rw [if_pos hguard]
    left
    rfl
  · rw [if_neg hguard]
    right
    rfl

lemma stepStrategy_quota_const (s : ErrorInjectionStrategy) (e : StrategyEvent) :
    (stepStrategy s e).quota.heap_quota = s.quota.heap_quota ∧
    (stepStrategy s e).quota.stack_quota = s.quota.stack_quota ∧
    (stepStrategy s e).quota.static_quota = s.quota.static_quota ∧
    (stepStrategy s e).quota.wildcard_quota = s.quota.wildcard_quota := by
  cases e with
  | setRegion r => simp [stepStrategy, SetCurrentRegion]
  | handlePointer d a v w =>
    have hstep : stepStrategy s (StrategyEvent.handlePointer d a v w) =
        (inject_error s d a v w).1 := rfl
    rw [hstep]
    rcases inject_error_quota s d a v w with hq | hq
    · rw [hq]
      exact ⟨rfl, rfl, rfl, rfl⟩
    · rw [hq]
      exact increment_quota_const _ _
  | handleNonPointer d a v w =>
    have hstep : stepStrategy s (StrategyEvent.handleNonPointer d a v w) =
        (inject_error s d a v w).1 := rfl
    rw [hstep]
    rcases inject_error_quota s d a v w with hq | hq
    · rw [hq]
      exact ⟨rfl, rfl, rfl, rfl⟩
    · rw [hq]
      exact increment_quota_const _ _

lemma runStrategy_cons (s : ErrorInjectionStrategy) (e : StrategyEvent)
    (es : List StrategyEvent) :
    runStrategy s (e :: es) = runStrategy (stepStrategy s e) es := rfl

/-- The quota invariant holds along every event sequence, and the quotas
themselves never change. -/
lemma runStrategy_inv (es : List StrategyEvent) :
    ∀ s : ErrorInjectionStrategy, QuotaInvariant s →
    QuotaInvariant (runStrategy s es) ∧
    (runStrategy s es).quota.heap_quota = s.quota.heap_quota ∧
    (runStrategy s es).quota.stack_quota = s.quota.stack_quota ∧
    (runStrategy s es).quota.static_quota = s.quota.static_quota ∧
    (runStrategy s es).quota.wildcard_quota = s.quota.wildcard_quota := by
  induction es with
  | nil =>
    intro s hs
    exact ⟨hs, rfl, rfl, rfl, rfl⟩
  | cons e es ih =>
    intro s hs
    have hstep_inv : QuotaInvariant (stepStrategy s e) := by
      cases e with
      | setRegion r =>
        unfold QuotaInvariant at hs ⊢
        simpa [stepStrategy, SetCurrentRegion] using hs
      | handlePointer d a v w => exact quotaInvariant_inject s d a v w hs
      | handleNonPointer d a v w => exact quotaInvariant_inject s d a v w hs
    obtain ⟨hc1, hc2, hc3, hc4⟩ := stepStrategy_quota_const s e
    obtain ⟨hinv, hq1, hq2, hq3, hq4⟩ := ih (stepStrategy s e) hstep_inv
    rw [runStrategy_cons]
    exact ⟨hinv, hq1.trans hc1, hq2.trans hc2, hq3.trans hc3, hq4.trans hc4⟩

/-! ### Claim theorems -/

/-- C1: for every 64-bit value `v`, `IsLikelyPointer` returns `false` when
`v = 0`, when `v` is odd (`v & 1 == 1`), or when the high 16 bits of `v` are
neither all-zero nor all-one; and a value passing all three tests is
classified exactly by the region-membership check `IsValidPointerTarget`. -/
theorem claim_C1_pointer_classifier (rs : List MemoryRegion) (v : Nat) :
    ((v = 0 ∨ v % 2 = 1 ∨ (v &&& highMask ≠ 0 ∧ v &&& highMask ≠ highMask)) →
      IsLikelyPointer rs v = false) ∧
    (v ≠ 0 → v % 2 = 0 → (v &&& highMask = 0 ∨ v &&& highMask = highMask) →
      IsLikelyPointer rs v = IsValidPointerTarget rs v) := by
  have hand : v &&& 0x1 = v % 2 := Nat.and_one_is_mod v
  constructor
  · rintro (h | h | h)
    · simp [IsLikelyPointer, h]
    · have hv : v ≠ 0 := by omega
      simp [IsLikelyPointer, hv, hand, h]
    · by_cases hv : v = 0
      · simp [IsLikelyPointer, hv]
      · by_cases ho : v % 2 = 1
        · simp [IsLikelyPointer, hv, ho]
        · have he : v % 2 = 0 := by omega
          simp [IsLikelyPointer, hv, he, h]
  · intro h0 h2 h3
    have hnc : ¬ (v &&& highMask ≠ 0 ∧ v &&& highMask ≠ highMask) := by tauto
    simp [IsLikelyPointer, h0, hand, h2, hnc]

/-- Witness for C1 at the concrete inputs `v = 0` (rejected) and `v = 2`
(even, canonical: falls through to the membership check). -/
theorem claim_C1_pointer_classifier_witness :
    IsLikelyPointer [] 0 = false ∧
    IsLikelyPointer [] 2 = IsValidPointerTarget [] 2 :=
  ⟨(claim_C1_pointer_classifier [] 0).1 (Or.inl rfl),
   (claim_C1_pointer_classifier [] 2).2 (by decide) (by decide)
     (Or.inl (by decide))⟩

/-- C2: a strategy constructed with error limit `L` (so all class quotas are
zero and the wildcard quota is `L`) has at most `L` entries in its change map
after any sequence of scan events — for every region context switch, handler
invocation, and every outcome of the random draws. -/
theorem claim_C2_change_map_bounded (t : ErrorType) (L : Nat)
    (es : List StrategyEvent) :
    (runStrategy (mkErrorInjectionStrategy t L) es).changes.length ≤ L := by
  have h0 : QuotaInvariant (mkErrorInjectionStrategy t L) := by
    unfold QuotaInvariant mkErrorInjectionStrategy
    simp
  obtain ⟨hinv, hq1, hq2, hq3, hq4⟩ := runStrategy_inv es _ h0
  unfold QuotaInvariant at hinv
  have e1 : (mkErrorInjectionStrategy t L).quota.heap_quota = 0 := rfl
  have e2 : (mkErrorInjectionStrategy t L).quota.stack_quota = 0 := rfl
  have e3 : (mkErrorInjectionStrategy t L).quota.static_quota = 0 := rfl
  have e4 : (mkErrorInjectionStrategy t L).quota.wildcard_quota = L := rfl
  omega

/-- C3: for every `kind ∈ {0..4}` and 28-bit parameters, the packed value has
`kind` in the top 8 bits, `param1` in the next 28 and `param2` in the low 28
(`kind * 2^56 + p1 * 2^28 + p2`), and `Unpack` recovers `(kind, p1, p2)`
exactly. -/
theorem claim_C3_command_roundtrip (kind p1 p2 : Nat) (hk : kind ≤ 4)
    (h1 : p1 < 2 ^ 28) (h2 : p2 < 2 ^ 28) :
    Pack kind p1 p2 = kind * 2 ^ 56 + p1 * 2 ^ 28 + p2 ∧
    Unpack (Pack kind p1 p2) = (kind, p1, p2) := by
  have hc : Pack kind p1 p2 >>> CMD_SHIFT = kind := by
    rw [pack_shiftRight_cmd]
    omega
  have hp1 : (Pack kind p1 p2 >>> PARAM1_SHIFT) &&& PARAM_MASK = p1 :=
    pack_shiftRight_param1 _ _ _ h1 h2
  have hp2 : Pack kind p1 p2 &&& PARAM_MASK = p2 := pack_and_mask _ _ _ h2
  refine ⟨?_, ?_⟩
  · have e1 : Pack kind p1 p2 >>> CMD_SHIFT = Pack kind p1 p2 / 2 ^ 56 := by
      rw [Nat.shiftRight_eq_div_pow]
      norm_num [CMD_SHIFT]
    have e2 : Pack kind p1 p2 >>> PARAM1_SHIFT = Pack kind p1 p2 / 2 ^ 28 := by
      rw [Nat.shiftRight_eq_div_pow]
      norm_num [PARAM1_SHIFT]
    rw [e1] at hc
    rw [e2, and_param_mask] at hp1
    rw [and_param_mask] at hp2
    omega
  · unfold Unpack
    rw [hc, hp1, hp2]

/-- Witness for C3 at `(kind, p1, p2) = (4, 7, 9)`. -/
theorem claim_C3_command_roundtrip_witness :
    Pack 4 7 9 = 4 * 2 ^ 56 + 7 * 2 ^ 28 + 9 ∧
    Unpack (Pack 4 7 9) = (4, 7, 9) :=
  claim_C3_command_roundtrip 4 7 9 (by decide) (by decide) (by decide)

/-- C4: on a region table with well-formed ranges (`start ≤ end`) that is
sorted and disjoint (each region ends before the next starts — the state
maintained after a refresh), the binary-search membership check
`IsValidPointerTarget` returns `true` exactly when some region `r` of the
table satisfies `r.start ≤ a < r.end`. -/
theorem claim_C4_valid_target_iff (rs : List MemoryRegion) (addr : Nat)
    (hwf : ∀ r ∈ rs, r.start_addr ≤ r.end_addr)
    (hsorted : List.Pairwise (fun a b => a.end_addr ≤ b.start_addr) rs) :
    IsValidPointerTarget rs addr = true ↔
      ∃ r ∈ rs, r.start_addr ≤ addr ∧ addr < r.end_addr := by
  have hpw := List.pairwise_iff_getElem.mp hsorted
  have hmono : ∀ j k, j ≤ k → k < rs.length →
      addr < (rs.getD j default).start_addr →
      addr < (rs.getD k default).start_addr := by
    intro j k hjk hk hP
    rcases Nat.eq_or_lt_of_le hjk with rfl | hlt
    · exact hP
    · have hj : j < rs.length := by omega
      rw [getD_eq_getElem_of_lt rs j hj] at hP
      rw [getD_eq_getElem_of_lt rs k hk]
      have h1 : rs[j].start_addr ≤ rs[j].end_addr := hwf _ (List.getElem_mem hj)
      have h2 : rs[j].end_addr ≤ rs[k].start_addr := hpw j k hj hk hlt
      omega
  obtain ⟨h0le, hlen, hlo, hhi⟩ :=
    upperBoundLoop_spec rs addr hmono rs.length rs.length 0 (Nat.le_refl _)
      (by omega) (by intro j hj; omega) (by intro j hj hjn; omega)
  unfold IsValidPointerTarget upperBound
  by_cases hz : upperBoundLoop rs addr rs.length 0 rs.length = 0
  · rw [if_pos hz]
    constructor
    · intro h
      exact absurd h (by simp)
    · rintro ⟨r, hr, hle2, hlt2⟩
      obtain ⟨k, hk, hrk⟩ := List.mem_iff_getElem.mp hr
      have hP := hhi k (by omega) hk
      rw [getD_eq_getElem_of_lt rs k hk, hrk] at hP
      omega
  · rw [if_neg hz]
    set i := upperBoundLoop rs addr rs.length 0 rs.length with hi
    have hi1 : i - 1 < rs.length := by omega
    have hstart : (rs.getD (i - 1) default).start_addr ≤ addr := by
      have := hlo (i - 1) (by omega)
      omega
    show (decide (addr ≥ (rs.getD (i - 1) default).start_addr)
        && decide (addr < (rs.getD (i - 1) default).end_addr)) = true ↔ _
    by_cases hend : addr < (rs.getD (i - 1) default).end_addr
    · constructor
      · intro _
        rw [getD_eq_getElem_of_lt rs (i - 1) hi1] at hstart hend
        exact ⟨rs[i - 1], List.getElem_mem hi1, hstart, hend⟩
      · intro _
        exact Bool.and_eq_true_iff.mpr ⟨decide_eq_true hstart, decide_eq_true hend⟩
    · constructor
      · intro hcontr
        have hc2 := (Bool.and_eq_true_iff.mp hcontr).2
        rw [decide_eq_true_eq] at hc2
        exact absurd hc2 hend
      · rintro ⟨r, hr, hrle, hrlt⟩
        obtain ⟨k, hk, hrk⟩ := List.mem_iff_getElem.mp hr
        exfalso
        rcases Nat.lt_or_ge k i with hki | hki
        · rcases Nat.eq_or_lt_of_le (by omega : k ≤ i - 1) with heq | hlt2
          · subst heq
            rw [getD_eq_getElem_of_lt rs (i - 1) hi1, hrk] at hend
            omega
          · have hke : rs[k].end_addr ≤ rs[i - 1].start_addr :=
              hpw k (i - 1) hk hi1 (by omega)
            rw [getD_eq_getElem_of_lt rs (i - 1) hi1] at hstart
            rw [hrk] at hke
            omega
        · have hP := hhi k (by omega) hk
          rw [getD_eq_getElem_of_lt rs k hk, hrk] at hP
          omega

/-- Witness for C4 on a concrete two-region table and the address `5000`,
which lies inside the first region. -/
theorem claim_C4_valid_target_iff_witness :
    IsValidPointerTarget
      [⟨4096, 8192, true, true, false, true, "[heap]"⟩,
       ⟨12288, 16384, true, false, false, true, "[stack]"⟩] 5000 = true :=
  (claim_C4_valid_target_iff
      [⟨4096, 8192, true, true, false, true, "[heap]"⟩,
       ⟨12288, 16384, true, false, false, true, "[stack]"⟩] 5000
      (by decide) (by decide)).mpr
    ⟨⟨4096, 8192, true, true, false, true, "[heap]"⟩, by decide, by decide,
      by decide⟩

/-- C5: `RestoreCheckpoint` succeeds only when a prior checkpoint exists
(non-empty stored data) and the current region layout matches the recorded
one (equal `start_addr`, `end_addr` and writable flag, in order, for all
recorded regions); on a layout mismatch it returns failure with no write
attempted against the traced process. -/
theorem claim_C5_restore_guard (attached : Bool) (cur : List MemoryRegion)
    (wm : Nat → List Nat → Bool) (st : ProcessCheckpoint) :
    ((RestoreCheckpoint attached cur wm st).1 = true →
      st.checkpoint_data ≠ [] ∧ regionsEqual st.checkpoint_regions cur = true) ∧
    (regionsEqual st.checkpoint_regions cur = false →
      RestoreCheckpoint attached cur wm st = (false, [])) := by
  unfold RestoreCheckpoint
  cases attached with
  | false =>
    constructor
    · intro h
      simp at h
    · intro hne
      simp
  | true =>
    by_cases hemp : st.checkpoint_data.isEmpty
    · constructor
      · intro h
        simp [hemp] at h
      · intro hne
        simp [hemp]
    · by_cases heq2 : regionsEqual st.checkpoint_regions cur
      · constructor
        · intro h
          refine ⟨?_, heq2⟩
          intro hnil
          rw [hnil] at hemp
          simp at hemp
        · intro hf
          rw [heq2] at hf
          cases hf
      · constructor
        · intro h
          simp [hemp, heq2] at h
        · intro hf
          simp [hemp, heq2]

/-- Witness for C5: a concrete mismatching layout yields `(false, [])`, and a
concrete successful restore certifies the only-if direction. -/
theorem claim_C5_restore_guard_witness :
    RestoreCheckpoint true [] (fun _ _ => true)
        { checkpoint_data := [⟨4096, [171]⟩],
          checkpoint_regions := [⟨4096, 8192, true, true, false, true, "[heap]"⟩] } =
      (false, []) ∧
    (({ checkpoint_data := [⟨4096, [171]⟩],
        checkpoint_regions := [⟨4096, 8192, true, true, false, true, "[heap]"⟩] } :
        ProcessCheckpoint).checkpoint_data ≠ [] ∧
      regionsEqual
        ({ checkpoint_data := [⟨4096, [171]⟩],
           checkpoint_regions := [⟨4096, 8192, true, true, false, true, "[heap]"⟩] } :
          ProcessCheckpoint).checkpoint_regions
        [⟨4096, 8192, true, true, false, true, "[heap]"⟩] = true) :=
  ⟨(claim_C5_restore_guard true [] (fun _ _ => true)
      { checkpoint_data := [⟨4096, [171]⟩],
        checkpoint_regions := [⟨4096, 8192, true, true, false, true, "[heap]"⟩] }).2
     (by decide),
   (claim_C5_restore_guard true [⟨4096, 8192, true, true, false, true, "[heap]"⟩]
      (fun _ _ => true)
      { checkpoint_data := [⟨4096, [171]⟩],
        checkpoint_regions := [⟨4096, 8192, true, true, false, true, "[heap]"⟩] }).1
     (by decide)⟩

/-- C6 counterexample: with one wildcard budget remaining and class
`Unknown`, the quota consultation denies the mutation (`Available` returns
`false` through its `default:` branch), contradicting the claim that any
class with wildcard budget remaining is permitted. -/
theorem claim_C6_counterexample :
    ({ wildcard_quota := 1 } : RegionQuota).wildcard_errors <
      ({ wildcard_quota := 1 } : RegionQuota).wildcard_quota ∧
    RegionQuota.Available { wildcard_quota := 1 } PointerType.Unknown = false :=
  ⟨by decide, rfl⟩

/-- C6 (amended): for the classes Heap, Stack and Static the quota
consultation permits a mutation iff the class budget or the wildcard budget
has room (in particular a word whose class budget is exhausted may still be
mutated while wildcard budget remains); for `Unknown` it always denies.  For
a writable word whose rate draw passes, `inject_error` signals mutation
exactly as `Available` dictates. -/
theorem claim_C6_quota_available (q : RegionQuota) :
    (q.Available PointerType.Heap = true ↔
      q.heap_errors < q.heap_quota ∨ q.wildcard_errors < q.wildcard_quota) ∧
    (q.Available PointerType.Stack = true ↔
      q.stack_errors < q.stack_quota ∨ q.wildcard_errors < q.wildcard_quota) ∧
    (q.Available PointerType.Static = true ↔
      q.static_errors < q.static_quota ∨ q.wildcard_errors < q.wildcard_quota) ∧
    q.Available PointerType.Unknown = false ∧
    (∀ (s : ErrorInjectionStrategy) (d : InjectDraws) (addr value : Nat),
      s.quota = q → d.draw_gt_rate = false →
      (inject_error s d addr value true).2.1 =
        q.Available (determine_pointer_type s.current_region)) := by
  refine ⟨by simp [RegionQuota.Available], by simp [RegionQuota.Available],
    by simp [RegionQuota.Available], rfl, ?_⟩
  intro s d addr value hq hd
  subst hq
  unfold inject_error
  cases hav : s.quota.Available (determine_pointer_type s.current_region) with
  | false => simp [hav, hd]
  | true => simp [hav, hd]

/-- Witness for C6 (amended): a quota with wildcard room admits a Heap word,
and a concrete `inject_error` call mutates exactly as `Available` says. -/
theorem claim_C6_quota_available_witness :
    ({ wildcard_quota := 2 } : RegionQuota).Available PointerType.Heap = true ∧
    (inject_error
        { err_type := ErrorType.BitFlip, quota := { wildcard_quota := 2 },
          changes := [],
          current_region := some ⟨0, 4096, true, true, false, true, "[heap]"⟩ }
        ⟨false, 3, 5, 0⟩ 64 100 true).2.1 =
      ({ wildcard_quota := 2 } : RegionQuota).Available
        (determine_pointer_type
          (some ⟨0, 4096, true, true, false, true, "[heap]"⟩)) :=
  ⟨(claim_C6_quota_available { wildcard_quota := 2 }).1.mpr (Or.inr (by decide)),
   (claim_C6_quota_available { wildcard_quota := 2 }).2.2.2.2
     { err_type := ErrorType.BitFlip, quota := { wildcard_quota := 2 },
       changes := [],
       current_region := some ⟨0, 4096, true, true, false, true, "[heap]"⟩ }
     ⟨false, 3, 5, 0⟩ 64 100 rfl rfl⟩

/-- C7 counterexample: the label `"x[heap]"` is nonempty and differs from
`"[heap]"`, so by the claim it should map to Static, yet the code classifies
it as Heap because `find("[heap]")` is a substring search. -/
theorem claim_C7_counterexample :
    MemoryRegion.DeterminePointerType ⟨0, 0, true, true, false, true, "x[heap]"⟩
      = PointerType.Heap ∧
    ("x[heap]" : String) ≠ "" ∧ ("x[heap]" : String) ≠ "[heap]" :=
  ⟨rfl, by decide, by decide⟩

section
open Classical

/-- C7 (amended): the pointer class derived from a mapping label is Unknown
for the empty label, Heap when the label contains `"[heap]"` as a contiguous
substring, else Stack when it contains `"[stack]"`, and Static otherwise; it
is a pure function of the label, and the strategy-side classifier agrees with
the region-side one. -/
theorem claim_C7_pointer_class (r : MemoryRegion) :
    (MemoryRegion.DeterminePointerType r =
      if r.mapping_name.toList = [] then PointerType.Unknown
      else if ∃ i, (r.mapping_name.toList.drop i).take "[heap]".toList.length
          = "[heap]".toList then PointerType.Heap
      else if ∃ i, (r.mapping_name.toList.drop i).take "[stack]".toList.length
          = "[stack]".toList then PointerType.Stack
      else PointerType.Static) ∧
    (∀ r2 : MemoryRegion, r2.mapping_name = r.mapping_name →
      MemoryRegion.DeterminePointerType r2 = MemoryRegion.DeterminePointerType r) ∧
    determine_pointer_type (some r) = MemoryRegion.DeterminePointerType r := by
  have hheap : strContainsSubstr r.mapping_name "[heap]" = true ↔
      ∃ i, (r.mapping_name.toList.drop i).take "[heap]".toList.length
        = "[heap]".toList := by
    rw [strContainsSubstr, listContainsSubstr_iff]
  have hstack : strContainsSubstr r.mapping_name "[stack]" = true ↔
      ∃ i, (r.mapping_name.toList.drop i).take "[stack]".toList.length
        = "[stack]".toList := by
    rw [strContainsSubstr, listContainsSubstr_iff]
  refine ⟨?_, ?_, rfl⟩
  · by_cases h0 : r.mapping_name.toList = []
    · have e1 : MemoryRegion.DeterminePointerType r = PointerType.Unknown := by
        unfold MemoryRegion.DeterminePointerType
        rw [if_pos h0]
      rw [e1, if_pos h0]
    · by_cases hh : strContainsSubstr r.mapping_name "[heap]" = true
      · have hex := hheap.mp hh
        have e1 : MemoryRegion.DeterminePointerType r = PointerType.Heap := by
          unfold MemoryRegion.DeterminePointerType
          rw [if_neg h0, if_pos hh]
        rw [e1, if_neg h0, if_pos hex]
      · have hnex : ¬ ∃ i, (r.mapping_name.toList.drop i).take
            "[heap]".toList.length = "[heap]".toList :=
          fun he => hh (hheap.mpr he)
        by_cases hs : strContainsSubstr r.mapping_name "[stack]" = true
        · have hsex := hstack.mp hs
          have e1 : MemoryRegion.DeterminePointerType r = PointerType.Stack := by
            unfold MemoryRegion.DeterminePointerType
            rw [if_neg h0, if_neg hh, if_pos hs]
          rw [e1, if_neg h0, if_neg hnex, if_pos hsex]
        · have hnsex : ¬ ∃ i, (r.mapping_name.toList.drop i).take
              "[stack]".toList.length = "[stack]".toList :=
            fun he => hs (hstack.mpr he)
          have e1 : MemoryRegion.DeterminePointerType r = PointerType.Static := by
            unfold MemoryRegion.DeterminePointerType
            rw [if_neg h0, if_neg hh, if_neg hs]
          rw [e1, if_neg h0, if_neg hnex, if_neg hnsex]
  · intro r2 h2
    simp only [MemoryRegion.DeterminePointerType, strContainsSubstr, h2]

end

/-- Witness for C7 (amended): two regions sharing the label `"[heap]"` get
the same class regardless of their other fields. -/
theorem claim_C7_pointer_class_witness :
    MemoryRegion.DeterminePointerType ⟨8, 16, true, false, false, true, "[heap]"⟩ =
      MemoryRegion.DeterminePointerType ⟨0, 0, false, false, false, false, "[heap]"⟩ :=
  (claim_C7_pointer_class ⟨0, 0, false, false, false, false, "[heap]"⟩).2.1
    ⟨8, 16, true, false, false, true, "[heap]"⟩ rfl

/-- C8 counterexample: calling `Attach` while already attached returns the
success value `true` immediately (here even with every syscall oracle set to
fail, so the success can only come from the early return), rather than
surfacing an error as the claim states. -/
theorem claim_C8_counterexample :
    (Attach true ⟨false, false, false, false, false, false, false, false⟩).1
      = true := rfl

/-- C8 (amended): constructing a controller with PID ≤ 0 and constructing the
scanner with zero workers are surfaced immediately as exceptions the caller
can catch; calling `Attach` when already attached is not an error — it
returns success at once, leaving the attached flag set. -/
theorem claim_C8_preconditions (pid : Int) (w : PtraceWorld) :
    (pid ≤ 0 → ProcessBaseNew pid = Except.error "Invalid process ID") ∧
    (0 < pid → ProcessScannerNew pid 0 =
      Except.error "Invalid number of threads (0)") ∧
    Attach true w = (true, true) := by
  refine ⟨?_, ?_, rfl⟩
  · intro h
    simp [ProcessBaseNew, h]
  · intro h
    simp [ProcessScannerNew, ProcessBaseNew, not_le.mpr h]

/-- Witness for C8 (amended) at PID `-1` (controller) and PID `1` with zero
workers (scanner). -/
theorem claim_C8_preconditions_witness :
    ProcessBaseNew (-1) = Except.error "Invalid process ID" ∧
    ProcessScannerNew 1 0 = Except.error "Invalid number of threads (0)" :=
  ⟨(claim_C8_preconditions (-1)
      ⟨false, false, false, false, false, false, false, false⟩).1 (by norm_num),
   (claim_C8_preconditions 1
      ⟨false, false, false, false, false, false, false, false⟩).2.1 (by norm_num)⟩

/-- C9: packing `(NoOp, 0, 0)` yields the all-zero payload, and the monitor
request handler discards a null payload without storing the command or
touching the pending flag — so such a command is never seen by the dispatch
loop and never acknowledged. -/
theorem claim_C9_noop_null_payload :
    Pack MonitorCommand.NoOp.toNat 0 0 = 0 ∧
    ∀ st : MonitorChannelState, HandleCommandSignal st 0 = st := by
  constructor
  · decide
  · intro st
    rfl

/-- C10: when `CreateCheckpoint` (attached, refresh succeeded) fails to read
some writable region, the stored data and recorded regions end up cleared,
and any subsequent `RestoreCheckpoint` against that cleared state fails
because no checkpoint exists. -/
theorem claim_C10_checkpoint_clear (regions : List MemoryRegion)
    (rm : Nat → Nat → Option (List Nat)) (st : ProcessCheckpoint)
    (h : createChunks rm regions = none) :
    CreateCheckpoint true true regions rm st =
      (false, { checkpoint_data := [], checkpoint_regions := [] }) ∧
    ∀ (attached : Bool) (cur : List MemoryRegion) (wm : Nat → List Nat → Bool),
      (RestoreCheckpoint attached cur wm
        { checkpoint_data := [], checkpoint_regions := [] }).1 = false := by
  constructor
  · simp [CreateCheckpoint, h, ProcessCheckpoint.Clear]
  · intro a c w
    cases a <;> simp [RestoreCheckpoint]

/-- Witness for C10: a failing reader discards a previously successful
checkpoint and the subsequent restore fails. -/
theorem claim_C10_checkpoint_clear_witness :
    CreateCheckpoint true true [⟨0, 8, true, true, false, true, "[heap]"⟩]
        (fun _ _ => none)
        { checkpoint_data := [⟨0, [171]⟩],
          checkpoint_regions := [⟨0, 8, true, true, false, true, "[heap]"⟩] } =
      (false, { checkpoint_data := [], checkpoint_regions := [] }) ∧
    (RestoreCheckpoint true [] (fun _ _ => true)
      { checkpoint_data := [], checkpoint_regions := [] }).1 = false := by
  have h := claim_C10_checkpoint_clear
      [⟨0, 8, true, true, false, true, "[heap]"⟩] (fun _ _ => none)
      { checkpoint_data := [⟨0, [171]⟩],
        checkpoint_regions := [⟨0, 8, true, true, false, true, "[heap]"⟩] }
      (by decide)
  exact ⟨h.1, h.2 true [] (fun _ _ => true)⟩

end MemoryScanner
